import Mathlib

/-!
Verification of the Face Identity Resolution Engine of
`light-recon-face-recognition` against its natural-language specification.

The relevant code lives in `main_modern.py` (registry build `load_known_faces`,
live matching loop `update_frame`), `face_scanner_modern.py` (enrollment:
`update_frame` auto-capture, `capture_image`, `save_profile`) and
`settings_manager.py` (`DEFAULT_SETTINGS`).

Modelling conventions:
* Embedding vectors and detector confidences are real-valued in the code
  (numpy float arrays); they are modelled as rationals (`ℚ`), which keeps
  every definition executable.  Float rounding is idealised away.
* `np.linalg.norm(stored - query, axis=1)` computes Euclidean distances.
  We carry the *squared* distance (`dist2`) instead of the distance itself,
  because square roots are irrational.  Since `Real.sqrt` is strictly
  monotone on nonnegatives, the argmin over squared distances is the argmin
  over distances, and the code's comparison `sqrt d < t` is equivalent to
  `d < t ^ 2` for `t > 0`; theorems that speak about genuine Euclidean
  distance do so through `Real.sqrt` of the squared value.
* The face detector, the embedding model and the camera are external
  black boxes (spec section 1); they appear as explicit data (detection
  lists attached to images / frames) or as function parameters (`embed`).
* Stateful GUI code is embedded as explicit state-passing: the live loop's
  per-poll mutation of `frame_count` / `process_this_frame` becomes a step
  function on a `LiveState`, the scanner session a step function on a
  `ScanState`, and filesystem writes become values returned by
  `save_profile`.
-/

/-! ## Squared Euclidean distance and `np.argmin`

`main_modern.py` lines 859-864:
    distances = np.linalg.norm(self.known_face_encodings - encoding, axis=1)
    best_match_idx = np.argmin(distances)
    min_distance = distances[best_match_idx]
-/

/-- Squared Euclidean distance between two vectors (the square of what
`np.linalg.norm(u - v)` returns). -/
def dist2 (u v : List ℚ) : ℚ :=
  (List.zipWith (fun a b => (a - b) ^ 2) u v).sum

/-- The per-stored-vector distance array of `update_frame` line 859
(in squared form): distance from each stored encoding to the query. -/
def distances (encodings : List (List ℚ)) (q : List ℚ) : List ℚ :=
  encodings.map (fun e => dist2 e q)

/-- `np.argmin` (line 863): index of the first occurrence of the minimum
value of the list (numpy documents that ties return the first occurrence).
Returns 0 on the empty list; the code only calls it on non-empty arrays. -/
def argminIdx : List ℚ → Nat
  | [] => 0
  | [_] => 0
  | d :: e :: rest =>
      if (e :: rest).getD (argminIdx (e :: rest)) 0 < d then
        argminIdx (e :: rest) + 1
      else 0

/-! ## The registry query of `update_frame` (lines 856-873)

    name = "Unknown"
    if len(self.known_face_encodings) > 0:
        distances = ...; best_match_idx = np.argmin(distances)
        min_distance = distances[best_match_idx]
        if min_distance < 0.8:
            name = self.known_face_names[best_match_idx]

The threshold `0.8` is a literal in the code; `queryMatchT` abstracts it as
a parameter `t` so that claims quantifying over thresholds can be stated,
and `queryMatch` is the code's instantiation at `4/5`.  The comparison
`min_distance < t` on Euclidean distances is represented as
`min_dist2 < t ^ 2` on squared distances. -/

def queryMatchT (encodings : List (List ℚ)) (names : List String)
    (q : List ℚ) (t : ℚ) : String :=
  if encodings.length = 0 then "Unknown"
  else
    let ds := distances encodings q
    if ds.getD (argminIdx ds) 0 < t ^ 2 then names.getD (argminIdx ds) "Unknown"
    else "Unknown"

/-- The code's query with its hardcoded recognition threshold `0.8`
(`update_frame` line 869). -/
def queryMatch (encodings : List (List ℚ)) (names : List String)
    (q : List ℚ) : String :=
  queryMatchT encodings names q (4 / 5)

/-! ### Helper lemmas about `dist2`, `distances`, `argminIdx` -/

theorem dist2_cons (a b : ℚ) (u v : List ℚ) :
    dist2 (a :: u) (b :: v) = (a - b) ^ 2 + dist2 u v := by
  simp [dist2, List.zipWith]

theorem dist2_nonneg (u v : List ℚ) : 0 ≤ dist2 u v := by
  induction u generalizing v with
  | nil => simp [dist2]
  | cons a u ih =>
      cases v with
      | nil => simp [dist2]
      | cons b v =>
          rw [dist2_cons]
          exact add_nonneg (sq_nonneg _) (ih v)

theorem dist2_self (v : List ℚ) : dist2 v v = 0 := by
  induction v with
  | nil => simp [dist2]
  | cons a u ih => rw [dist2_cons, ih]; ring

theorem getD_map {α β : Type} (f : α → β) (l : List α) (i : Nat)
    (hi : i < l.length) (a : α) (b : β) :
    (l.map f).getD i b = f (l.getD i a) := by
  induction l generalizing i with
  | nil => simp at hi
  | cons x xs ih =>
      cases i with
      | zero => simp
      | succ i =>
          simp only [List.map_cons, List.getD_cons_succ]
          exact ih i (by simpa using hi)

theorem argminIdx_lt_length : ∀ l : List ℚ, l ≠ [] → argminIdx l < l.length
  | [], h => absurd rfl h
  | [_], _ => by simp [argminIdx]
  | d :: e :: rest, _ => by
      have ih := argminIdx_lt_length (e :: rest) (by simp)
      simp only [argminIdx]
      split
      · simpa using Nat.succ_lt_succ ih
      · simp

theorem argminIdx_le :
    ∀ (l : List ℚ) (i : Nat), i < l.length →
      l.getD (argminIdx l) 0 ≤ l.getD i 0
  | [], i, hi => absurd hi (by simp)
  | [x], i, hi => by
      have : i = 0 := by simpa using Nat.lt_one_iff.mp (by simpa using hi)
      subst this
      simp [argminIdx]
  | d :: e :: rest, i, hi => by
      simp only [argminIdx]
      split
      · rename_i hbr
        cases i with
        | zero =>
            simpa using le_of_lt hbr
        | succ i =>
            simpa using argminIdx_le (e :: rest) i (by simpa using hi)
      · rename_i hbr
        push_neg at hbr
        cases i with
        | zero => simp
        | succ i =>
            have h2 := argminIdx_le (e :: rest) i (by simpa using hi)
            simpa using le_trans hbr h2

theorem argminIdx_first :
    ∀ (l : List ℚ) (i : Nat), i < argminIdx l →
      l.getD (argminIdx l) 0 < l.getD i 0
  | [], i, hi => by simp [argminIdx] at hi
  | [x], i, hi => by simp [argminIdx] at hi
  | d :: e :: rest, i, hi => by
      simp only [argminIdx] at hi ⊢
      by_cases hbr : (e :: rest).getD (argminIdx (e :: rest)) 0 < d
      · rw [if_pos hbr] at hi ⊢
        cases i with
        | zero => simpa using hbr
        | succ i =>
            simp only [List.getD_cons_succ]
            exact argminIdx_first (e :: rest) i (by omega)
      · rw [if_neg hbr] at hi
        omega

theorem distances_length (enc : List (List ℚ)) (q : List ℚ) :
    (distances enc q).length = enc.length :=
  List.length_map _ _

theorem distances_getD (enc : List (List ℚ)) (q : List ℚ) (i : Nat)
    (hi : i < enc.length) :
    (distances enc q).getD i 0 = dist2 (enc.getD i []) q :=
  getD_map _ enc i hi [] 0

theorem distances_getD_nonneg (enc : List (List ℚ)) (q : List ℚ) (i : Nat) :
    0 ≤ (distances enc q).getD i 0 := by
  by_cases hi : i < enc.length
  · rw [distances_getD enc q i hi]
    exact dist2_nonneg _ _
  · rw [List.getD_eq_default]
    rw [distances_length]
    omega

/-- Clause of C1: the code's recognition-threshold comparison
`min_distance < 0.8` (on the Euclidean distance, `update_frame` line 869)
is represented on squared distances as `d < t ^ 2`. -/
theorem sqrt_lt_iff_dist2_lt (d t : ℚ) (ht : 0 < t) :
    Real.sqrt (d : ℝ) < (t : ℝ) ↔ d < t ^ 2 := by
  rw [Real.sqrt_lt' (by exact_mod_cast ht)]
  constructor
  · intro h
    exact_mod_cast h
  · intro h
    exact_mod_cast h

/-- **C1.** For every non-empty registry and every query embedding, the code
computes the Euclidean distance from the query to every stored vector and
selects the global minimum at the first-encountered minimizing index
`argminIdx`: that index is in bounds, its (squared-)distance is a global
minimum of the distance array (stated via `Real.sqrt`, i.e. on genuine
Euclidean distances), every strictly earlier index has strictly larger
distance (first-encountered tie-breaking in insertion order), and the
returned label is the one at that index when the minimal Euclidean distance
is strictly below the recognition threshold `0.8`, else `"Unknown"`. -/
theorem query_nearest_label (enc : List (List ℚ)) (names : List String)
    (q : List ℚ) (hne : enc ≠ []) (hlen : names.length = enc.length) :
    argminIdx (distances enc q) < enc.length ∧
    argminIdx (distances enc q) < names.length ∧
    (∀ i, i < enc.length →
        Real.sqrt ((distances enc q).getD (argminIdx (distances enc q)) 0 : ℝ) ≤
          Real.sqrt ((distances enc q).getD i 0 : ℝ)) ∧
    (∀ i, i < argminIdx (distances enc q) →
        Real.sqrt ((distances enc q).getD (argminIdx (distances enc q)) 0 : ℝ) <
          Real.sqrt ((distances enc q).getD i 0 : ℝ)) ∧
    queryMatch enc names q =
      (if Real.sqrt ((distances enc q).getD (argminIdx (distances enc q)) 0 : ℝ)
          < 4 / 5 then
        names.getD (argminIdx (distances enc q)) "Unknown"
      else "Unknown") := by
  have hdne : distances enc q ≠ [] := by
    intro h
    apply hne
    have := distances_length enc q
    rw [h] at this
    exact List.length_eq_zero.mp this.symm
  have hargmin : argminIdx (distances enc q) < enc.length := by
    have := argminIdx_lt_length (distances enc q) hdne
    rwa [distances_length] at this
  refine ⟨hargmin, by omega, ?_, ?_, ?_⟩
  · intro i hi
    apply Real.sqrt_le_sqrt
    exact_mod_cast argminIdx_le (distances enc q) i
      (by rw [distances_length]; exact hi)
  · intro i hi
    apply Real.sqrt_lt_sqrt
    · exact_mod_cast distances_getD_nonneg enc q _
    · exact_mod_cast argminIdx_first (distances enc q) i hi
  · rw [queryMatch, queryMatchT]
    rw [if_neg (by simpa using List.length_eq_zero.not.mpr hne)]
    refine if_congr ?_ rfl rfl
    rw [show ((4 : ℝ) / 5) = ((4 / 5 : ℚ) : ℝ) by norm_num]
    exact (sqrt_lt_iff_dist2_lt _ _ (by norm_num)).symm

/-- Witness for C1 at a concrete input: registry `[[3], [0]]` with names
`["A", "B"]` and query `[0]`; the minimizing index is in bounds. -/
theorem query_nearest_label_witness :
    ([[(3 : ℚ)], [0]] : List (List ℚ)) ≠ [] ∧
    (["A", "B"] : List String).length = ([[(3 : ℚ)], [0]] : List (List ℚ)).length ∧
    argminIdx (distances [[(3 : ℚ)], [0]] [0]) < ([[(3 : ℚ)], [0]] : List (List ℚ)).length :=
  ⟨by simp, by rfl,
    (query_nearest_label [[(3 : ℚ)], [0]] ["A", "B"] [0] (by simp) (by rfl)).1⟩

/-- **C7.** Querying an empty registry returns `"Unknown"` for every input
vector, and the distance array over the empty registry is empty (no distance
is computed); the query is a total function, so no exception is raised. -/
theorem query_empty_registry (names : List String) (q : List ℚ) :
    queryMatch [] names q = "Unknown" ∧ distances [] q = [] := by
  constructor
  · rw [queryMatch, queryMatchT]
    simp
  · rfl

/-- **C9.** If the registry contains a stored vector `v` and the query equals
`v`, the minimum (squared) distance computed by the code is `0`, and for any
positive recognition threshold `t` the query resolves to the stored label at
the minimizing index — a label of a zero-distance stored vector — which is
not `"Unknown"` as long as no enrolled label is literally named `"Unknown"`. -/
theorem query_exact_match (enc : List (List ℚ)) (names : List String)
    (v : List ℚ) (t : ℚ) (hv : v ∈ enc) (hlen : names.length = enc.length)
    (ht : 0 < t) :
    (distances enc v).getD (argminIdx (distances enc v)) 0 = 0 ∧
    ∃ j, j < names.length ∧ dist2 (enc.getD j []) v = 0 ∧
      queryMatchT enc names v t = names.getD j "Unknown" ∧
      ("Unknown" ∉ names → queryMatchT enc names v t ≠ "Unknown") := by
  have hne : enc ≠ [] := List.ne_nil_of_mem hv
  obtain ⟨iv, hiv, hget⟩ := List.mem_iff_getElem.mp hv
  have hzero_at : (distances enc v).getD iv 0 = 0 := by
    rw [distances_getD enc v iv hiv, List.getD_eq_getElem _ _ hiv, hget,
      dist2_self]
  have hargmin : argminIdx (distances enc v) < enc.length := by
    have hdne : distances enc v ≠ [] := by
      intro h
      apply hne
      have := distances_length enc v
      rw [h] at this
      exact List.length_eq_zero.mp this.symm
    have := argminIdx_lt_length (distances enc v) hdne
    rwa [distances_length] at this
  have hmin0 : (distances enc v).getD (argminIdx (distances enc v)) 0 = 0 := by
    have hle : (distances enc v).getD (argminIdx (distances enc v)) 0 ≤ 0 := by
      have h1 := argminIdx_le (distances enc v) iv
        (by rw [distances_length]; exact hiv)
      rwa [hzero_at] at h1
    exact le_antisymm hle (distances_getD_nonneg enc v _)
  have hresult : queryMatchT enc names v t =
      names.getD (argminIdx (distances enc v)) "Unknown" := by
    rw [queryMatchT]
    rw [if_neg (by simpa using List.length_eq_zero.not.mpr hne)]
    rw [if_pos (by rw [hmin0]; positivity)]
  refine ⟨hmin0, argminIdx (distances enc v), by omega, ?_, hresult, ?_⟩
  · rw [← distances_getD enc v _ hargmin]
    exact hmin0
  · intro hunk
    rw [hresult]
    have hjn : argminIdx (distances enc v) < names.length := by omega
    rw [List.getD_eq_getElem _ _ hjn]
    intro hcontra
    exact hunk (hcontra ▸ List.getElem_mem hjn)

/-- Witness for C9: registry `[[1], [2]]`, names `["A", "B"]`, query `[2]`
equal to the second stored vector, threshold `1/2`. -/
theorem query_exact_match_witness :
    ([2] : List ℚ) ∈ ([[(1 : ℚ)], [2]] : List (List ℚ)) ∧
    (["A", "B"] : List String).length = 2 ∧ (0 : ℚ) < 1 / 2 ∧
    (distances [[(1 : ℚ)], [2]] [2]).getD
      (argminIdx (distances [[(1 : ℚ)], [2]] [2])) 0 = 0 :=
  ⟨by simp, by rfl, by norm_num,
    (query_exact_match [[(1 : ℚ)], [2]] ["A", "B"] [2] (1 / 2) (by simp)
      (by rfl) (by norm_num)).1⟩

/-! ## Enrollment: `face_scanner_modern.py`

Captured camera frames are opaque to the enrollment logic (it only stores
them and writes them back out), so a frame is modelled as an abstract id. -/

/-- A raw camera frame (opaque id). -/
abbrev Frame := Nat

/-! ### The capture session state (`FaceScannerWindow`)

`__init__` lines 233-235 and 259:
    self.captured_images = []
    self.auto_capture = False
    ...
    self.frame_count = 0
-/

structure ScanState where
  capturedImages : List Frame
  autoCapture : Bool
  frameCount : Nat
deriving Repr, DecidableEq

/-- The scanner session's initial state (`__init__`). -/
def scanInit : ScanState :=
  { capturedImages := [], autoCapture := false, frameCount := 0 }

/-- `capture_image` (lines 630-636): reads one frame from the camera and
appends it to `captured_images`, unconditionally. -/
def capture_image (s : ScanState) (frame : Frame) : ScanState :=
  { s with capturedImages := s.capturedImages ++ [frame] }

/-- One tick of `FaceScannerWindow.update_frame` restricted to its
state-mutating part (lines 563-620): the frame counter is incremented
(line 569), and auto-capture (lines 617-620)
    if self.auto_capture and face_detected and self.frame_count % 60 == 0:
        if len(self.captured_images) < 10:
            self.capture_image()
appends one frame exactly when all four conditions hold. -/
def scanTick (s : ScanState) (faceDetected : Bool) (frame : Frame) : ScanState :=
  let s1 : ScanState := { s with frameCount := s.frameCount + 1 }
  if s1.autoCapture = true ∧ faceDetected = true ∧ s1.frameCount % 60 = 0 ∧
      s1.capturedImages.length < 10 then
    capture_image s1 frame
  else s1

/-- Iterated polling of the scanner window: one `scanTick` per timer event. -/
def runTicks (s : ScanState) : List (Bool × Frame) → ScanState
  | [] => s
  | (f, x) :: rest => runTicks (scanTick s f x) rest

/-- **C6.** The auto-capture path appends a frame exactly when auto-capture
is enabled, a face is detected, the (incremented) frame counter is a
multiple of 60, and fewer than 10 frames are captured; and from any session
state with at most 10 captured frames, no sequence of ticks (of any length,
e.g. 10000) ever brings the captured-frame count above 10. -/
theorem auto_capture_cap :
    (∀ (s : ScanState) (f : Bool) (x : Frame),
        (scanTick s f x).capturedImages =
          (if s.autoCapture = true ∧ f = true ∧ (s.frameCount + 1) % 60 = 0 ∧
              s.capturedImages.length < 10 then
            s.capturedImages ++ [x]
          else s.capturedImages) ∧
        (scanTick s f x).frameCount = s.frameCount + 1) ∧
    (∀ (s : ScanState) (ticks : List (Bool × Frame)),
        s.capturedImages.length ≤ 10 →
        (runTicks s ticks).capturedImages.length ≤ 10) := by
  have hstep : ∀ (s : ScanState) (f : Bool) (x : Frame),
      (scanTick s f x).capturedImages =
        (if s.autoCapture = true ∧ f = true ∧ (s.frameCount + 1) % 60 = 0 ∧
            s.capturedImages.length < 10 then
          s.capturedImages ++ [x]
        else s.capturedImages) := by
    intro s f x
    rw [scanTick]
    split
    · rfl
    · rfl
  refine ⟨fun s f x => ⟨hstep s f x, ?_⟩, ?_⟩
  · rw [scanTick]
    split <;> rfl
  · intro s ticks
    induction ticks generalizing s with
    | nil => intro h; exact h
    | cons t rest ih =>
        intro h
        obtain ⟨f, x⟩ := t
        rw [runTicks]
        apply ih
        rw [hstep s f x]
        split
        · rename_i hc
          simp only [List.length_append, List.length_cons, List.length_nil]
          omega
        · exact h

/-- Witness for C6: a fresh session with auto-capture on, ticked 10000 times
with a face always present, holds at most 10 captured frames. -/
theorem auto_capture_cap_witness :
    (⟨[], true, 0⟩ : ScanState).capturedImages.length ≤ 10 ∧
    (runTicks ⟨[], true, 0⟩
      (List.replicate 10000 (true, (0 : Frame)))).capturedImages.length ≤ 10 :=
  ⟨by decide, auto_capture_cap.2 ⟨[], true, 0⟩ _ (by decide)⟩

/-! ### `save_profile` (lines 668-714)

Filesystem effects are modelled as data: a successful save returns the list
of image writes (path, frame) and the profile record with its path; a
rejected save returns a validation error carrying the warning message and,
by construction, no writes. -/

structure ProfileFields where
  age : Nat
  gender : String
  occupation : String
  nationality : String
  status : String
  threat_level : String
  notes : String
deriving Repr, DecidableEq

/-- The `profile_data` dict written by `save_profile` (lines 693-704). -/
structure ProfileData where
  name : String
  age : Nat
  gender : String
  occupation : String
  nationality : String
  status : String
  threat_level : String
  last_seen : String
  notes : String
  sightings : Nat
deriving Repr, DecidableEq

inductive SaveOutcome where
  | validationError (message : String)
  | saved (imageWrites : List (String × Frame)) (profilePath : String)
      (profile : ProfileData)
deriving Repr, DecidableEq

/-- Python's `str.strip()` (no arguments): remove leading and trailing
whitespace.  Defined structurally on the character list so that it
evaluates inside the kernel. -/
def pyStrip (s : String) : String :=
  ⟨((s.data.dropWhile Char.isWhitespace).reverse.dropWhile
      Char.isWhitespace).reverse⟩

/-- The image path `os.path.join("dataset", name, f"{name}_{i+1}.jpg")`
(line 689). -/
def imagePath (name : String) (n : Nat) : String :=
  "dataset/" ++ name ++ "/" ++ name ++ "_" ++ toString n ++ ".jpg"

/-- `FaceScannerWindow.save_profile` (lines 668-714).  `now` stands for
`datetime.now().strftime(...)`.  Python's falsy-`or` defaulting of the
optional text fields (`or "Unknown"`) tests emptiness of the raw string. -/
def save_profile (rawName : String) (captured : List Frame)
    (fields : ProfileFields) (now : String) : SaveOutcome :=
  let name := pyStrip rawName
  if name = "" then .validationError "Please enter a name"
  else if captured.length < 3 then
    .validationError "Please capture at least 3 images"
  else
    .saved
      (captured.enum.map (fun p => (imagePath name (p.1 + 1), p.2)))
      ("dataset/" ++ name ++ "/profile.json")
      { name := name
        age := fields.age
        gender := fields.gender
        occupation := if fields.occupation = "" then "Unknown"
          else fields.occupation
        nationality := if fields.nationality = "" then "Unknown"
          else fields.nationality
        status := fields.status
        threat_level := fields.threat_level
        last_seen := now
        notes := if fields.notes = "" then "No additional information."
          else fields.notes
        sightings := 0 }

/-- The image files an outcome writes to disk (none for a rejected save). -/
def imageWritesOf : SaveOutcome → List (String × Frame)
  | .validationError _ => []
  | .saved w _ _ => w

/-- The profile record an outcome writes to disk (none for a rejected save). -/
def profileWriteOf : SaveOutcome → Option (String × ProfileData)
  | .validationError _ => none
  | .saved _ p pr => some (p, pr)

/-- **C2.** `save_profile` fails as a validation error — writing no image
file and no profile record — whenever the trimmed label is empty or fewer
than 3 frames are captured; with at least 3 captured frames (in particular
exactly 3) and a non-empty trimmed label it succeeds, writing one image per
captured frame, in order, at `dataset/<label>/<label>_<n>.jpg` with `n`
starting at 1, and a profile record at `dataset/<label>/profile.json` whose
`sightings` field is 0. -/
theorem save_profile_spec :
    (∀ (rawName : String) (captured : List Frame) (fields : ProfileFields)
        (now : String),
        pyStrip rawName = "" ∨ captured.length < 3 →
        ∃ msg, save_profile rawName captured fields now = .validationError msg ∧
          imageWritesOf (save_profile rawName captured fields now) = [] ∧
          profileWriteOf (save_profile rawName captured fields now) = none) ∧
    (∀ (rawName : String) (captured : List Frame) (fields : ProfileFields)
        (now : String),
        pyStrip rawName ≠ "" → 3 ≤ captured.length →
        ∃ writes profile,
          save_profile rawName captured fields now =
            .saved writes ("dataset/" ++ pyStrip rawName ++ "/profile.json")
              profile ∧
          writes.length = captured.length ∧
          (∀ i, i < captured.length →
            writes.getD i ("", 0) =
              (imagePath (pyStrip rawName) (i + 1), captured.getD i 0)) ∧
          profile.name = pyStrip rawName ∧ profile.sightings = 0) := by
  constructor
  · intro rawName captured fields now h
    rw [save_profile]
    by_cases h1 : pyStrip rawName = ""
    · rw [if_pos h1]
      exact ⟨_, rfl, rfl, rfl⟩
    · rw [if_neg h1]
      have h2 : captured.length < 3 := by
        rcases h with h | h
        · exact absurd h h1
        · exact h
      rw [if_pos h2]
      exact ⟨_, rfl, rfl, rfl⟩
  · intro rawName captured fields now h1 h2
    rw [save_profile, if_neg h1, if_neg (by omega)]
    refine ⟨_, _, rfl, ?_, ?_, rfl, rfl⟩
    · rw [List.length_map, List.enum_length]
    · intro i hi
      have hie : i < captured.enum.length := by rw [List.enum_length]; exact hi
      rw [getD_map _ _ i hie (0, 0) ("", 0), List.getD_eq_getElem _ _ hie,
        List.getElem_enum, List.getD_eq_getElem _ _ hi]

/-- Witness for C2: saving with name `" Alice "` and exactly 3 captured
frames succeeds with 3 image writes. -/
theorem save_profile_spec_witness :
    pyStrip " Alice " ≠ "" ∧ 3 ≤ ([7, 8, 9] : List Frame).length ∧
    ∃ writes profile,
      save_profile " Alice " [7, 8, 9]
          ⟨30, "Male", "", "", "CIVILIAN", "LOW", ""⟩ "2026-10-12" =
        .saved writes ("dataset/" ++ pyStrip " Alice " ++ "/profile.json")
          profile ∧
      writes.length = ([7, 8, 9] : List Frame).length ∧
      (∀ i, i < ([7, 8, 9] : List Frame).length →
        writes.getD i ("", 0) =
          (imagePath (pyStrip " Alice ") (i + 1), ([7, 8, 9] : List Frame).getD i 0)) ∧
      profile.name = pyStrip " Alice " ∧ profile.sightings = 0 :=
  ⟨by decide, by decide,
    save_profile_spec.2 " Alice " [7, 8, 9]
      ⟨30, "Male", "", "", "CIVILIAN", "LOW", ""⟩ "2026-10-12"
      (by decide) (by decide)⟩

/-! ## Registry build: `ModernMainWindow.load_known_faces` (lines 411-483)

The face detector and the embedding model are external black boxes: the
detector's outputs on an image are data of the model (the `dets` field),
and the embedding model is a function parameter `embed` from an image and a
clipped crop rectangle to a vector. -/

/-- One output row of the face detector: confidence `detections[0, 0, i, 2]`
and bounding box `detections[0, 0, i, 3:7]` in normalized coordinates. -/
structure Detection where
  confidence : ℚ
  bx1 : ℚ
  by1 : ℚ
  bx2 : ℚ
  by2 : ℚ
deriving Repr, DecidableEq

/-- An image successfully decoded by `cv2.imread`: its pixel dimensions
(`h, w = image.shape[:2]`) and the detector's outputs on it. -/
structure ImageData where
  w : Nat
  h : Nat
  dets : List Detection
deriving Repr, DecidableEq

/-- One file in a subject directory: its name and, when `cv2.imread`
succeeds, the decoded image (`none` models `imread` returning `None`). -/
structure ImageFile where
  filename : String
  image : Option ImageData
deriving Repr, DecidableEq

/-- One entry of the dataset root directory listing: its name, whether it
is a directory (line 423 skips non-directories), and its file listing. -/
structure DatasetEntry where
  name : String
  isDir : Bool
  files : List ImageFile
deriving Repr, DecidableEq

/-- The extension filter of line 430:
`image_file.endswith(('.jpg', '.jpeg', '.png'))`. -/
def fileExtOk (filename : String) : Bool :=
  (".jpg".data.isSuffixOf filename.data) ||
    (".jpeg".data.isSuffixOf filename.data) ||
    (".png".data.isSuffixOf filename.data)

/-- The best-detection scan of lines 442-450:
    best_detection = None
    best_confidence = 0
    for i in range(detections.shape[2]):
        confidence = detections[0, 0, i, 2]
        if confidence > 0.5 and confidence > best_confidence:
            best_confidence = confidence
            best_detection = detections[0, 0, i, 3:7] * ...
-/
def bestDetAux : List Detection → ℚ → Option Detection → Option Detection
  | [], _, best => best
  | d :: rest, bc, best =>
      if 1 / 2 < d.confidence ∧ bc < d.confidence then
        bestDetAux rest d.confidence (some d)
      else bestDetAux rest bc best

def best_detection (dets : List Detection) : Option Detection :=
  bestDetAux dets 0 none

/-- `numpy` `.astype("int")` (line 454): truncation toward zero. -/
def truncQ (q : ℚ) : ℤ := if 0 ≤ q then ⌊q⌋ else ⌈q⌉

/-- The clipped crop rectangle of lines 454-456:
    (x1, y1, x2, y2) = best_detection.astype("int")
    x1, y1 = max(0, x1), max(0, y1)
    x2, y2 = min(w, x2), min(h, y2)
(the box was already scaled by `np.array([w, h, w, h])` at line 450). -/
structure CropRect where
  x1 : ℤ
  y1 : ℤ
  x2 : ℤ
  y2 : ℤ
deriving Repr, DecidableEq

def cropRect (img : ImageData) (d : Detection) : CropRect :=
  { x1 := max 0 (truncQ (d.bx1 * img.w))
    y1 := max 0 (truncQ (d.by1 * img.h))
    x2 := min (img.w : ℤ) (truncQ (d.bx2 * img.w))
    y2 := min (img.h : ℤ) (truncQ (d.by2 * img.h)) }

/-- CPython's adjustment of one slice bound over an axis of length `n`
(step 1): a negative index counts from the end of the axis, and the result
is clamped into `[0, n]`.  The code clamps the start indices to `≥ 0` and
the stop indices to `≤ w` / `≤ h` only, so a stop index can still be
negative here and then wraps (`image[0:-10]` on 100 rows spans rows
0..89). -/
def sliceIdx (n i : ℤ) : ℤ :=
  if i < 0 then max (i + n) 0 else min i n

/-- The `face_image.size > 0` guard of line 460: the numpy slice
`image[y1:y2, x1:x2]` is non-empty iff both extents are positive after
Python slice-bound adjustment (`sliceIdx`) — rows are bounded by `h`,
columns by `w`. -/
def cropNonempty (img : ImageData) (r : CropRect) : Prop :=
  sliceIdx (img.w : ℤ) r.x1 < sliceIdx (img.w : ℤ) r.x2 ∧
  sliceIdx (img.h : ℤ) r.y1 < sliceIdx (img.h : ℤ) r.y2

instance (img : ImageData) (r : CropRect) : Decidable (cropNonempty img r) := by
  unfold cropNonempty
  infer_instance

/-- The `(label, embedding)` pairs one directory file contributes to the
registry (lines 429-474): filtered by extension, skipped when unreadable,
skipped when no detection clears the `0.5` confidence threshold, skipped
when the clipped crop is empty, else exactly one pair. -/
def imageEntries (embed : ImageData → CropRect → List ℚ) (person : String)
    (file : ImageFile) : List (String × List ℚ) :=
  if fileExtOk file.filename then
    match file.image with
    | none => []
    | some img =>
        match best_detection img.dets with
        | none => []
        | some d =>
            if cropNonempty img (cropRect img d) then
              [(person, embed img (cropRect img d))]
            else []
  else []

/-- `ModernMainWindow.load_known_faces` (lines 411-483): resets
`known_face_encodings` / `known_face_names` to empty, returns them empty
when the dataset root does not exist (line 417, `none` here), else walks
every root entry (skipping non-directories) and every file, appending one
encoding and one name per successful embedding (lines 469-470). -/
def load_known_faces (embed : ImageData → CropRect → List ℚ)
    (dataset : Option (List DatasetEntry)) :
    List (List ℚ) × List String :=
  match dataset with
  | none => ([], [])
  | some entries =>
      entries.foldl
        (fun acc e =>
          if e.isDir = true then
            e.files.foldl
              (fun acc2 file =>
                (imageEntries embed e.name file).foldl
                  (fun acc3 p => (acc3.1 ++ [p.2], acc3.2 ++ [p.1])) acc2)
              acc
          else acc)
        ([], [])

/-- The registry rows of one root entry, as a flat list of (label, vector)
pairs. -/
def dirEntries (embed : ImageData → CropRect → List ℚ) (e : DatasetEntry) :
    List (String × List ℚ) :=
  if e.isDir = true then e.files.flatMap (imageEntries embed e.name) else []

/-- All registry rows of a dataset, in traversal order. -/
def registryEntries (embed : ImageData → CropRect → List ℚ)
    (entries : List DatasetEntry) : List (String × List ℚ) :=
  entries.flatMap (dirEntries embed)

/-! ### Normal form of the imperative build loop -/

theorem foldl_pairAppend (ps : List (String × List ℚ))
    (acc : List (List ℚ) × List String) :
    ps.foldl (fun a p => (a.1 ++ [p.2], a.2 ++ [p.1])) acc =
      (acc.1 ++ ps.map Prod.snd, acc.2 ++ ps.map Prod.fst) := by
  induction ps generalizing acc with
  | nil => simp
  | cons p ps ih =>
      rw [List.foldl_cons, ih]
      simp

theorem foldl_files (embed : ImageData → CropRect → List ℚ) (person : String)
    (files : List ImageFile) (acc : List (List ℚ) × List String) :
    files.foldl
        (fun a file =>
          (imageEntries embed person file).foldl
            (fun a2 p => (a2.1 ++ [p.2], a2.2 ++ [p.1])) a) acc =
      (acc.1 ++ (files.flatMap (imageEntries embed person)).map Prod.snd,
       acc.2 ++ (files.flatMap (imageEntries embed person)).map Prod.fst) := by
  induction files generalizing acc with
  | nil => simp
  | cons file fs ih =>
      rw [List.foldl_cons, foldl_pairAppend, ih]
      simp

theorem load_known_faces_some (embed : ImageData → CropRect → List ℚ)
    (entries : List DatasetEntry) :
    load_known_faces embed (some entries) =
      ((registryEntries embed entries).map Prod.snd,
       (registryEntries embed entries).map Prod.fst) := by
  rw [load_known_faces]
  have main : ∀ (es : List DatasetEntry) (acc : List (List ℚ) × List String),
      es.foldl
          (fun acc e =>
            if e.isDir = true then
              e.files.foldl
                (fun acc2 file =>
                  (imageEntries embed e.name file).foldl
                    (fun acc3 p => (acc3.1 ++ [p.2], acc3.2 ++ [p.1])) acc2)
                acc
            else acc) acc =
        (acc.1 ++ (registryEntries embed es).map Prod.snd,
         acc.2 ++ (registryEntries embed es).map Prod.fst) := by
    intro es
    induction es with
    | nil => intro acc; simp [registryEntries]
    | cons e es ih =>
        intro acc
        rw [List.foldl_cons]
        by_cases hd : e.isDir = true
        · rw [if_pos hd, foldl_files, ih]
          simp [registryEntries, dirEntries, hd]
        · rw [if_neg hd, ih]
          simp [registryEntries, dirEntries, hd]
  rw [main entries ([], [])]
  simp

/-! ### Characterization of the best-detection scan -/

theorem bestDetAux_some_ne_none :
    ∀ (l : List Detection) (bc : ℚ) (b : Detection),
      bestDetAux l bc (some b) ≠ none
  | [], _, _ => by simp [bestDetAux]
  | d :: rest, bc, b => by
      rw [bestDetAux]
      split
      · exact bestDetAux_some_ne_none rest d.confidence d
      · exact bestDetAux_some_ne_none rest bc b

theorem bestDetAux_none_iff :
    ∀ (l : List Detection) (bc : ℚ),
      bestDetAux l bc none = none ↔
        ∀ d ∈ l, ¬(1 / 2 < d.confidence ∧ bc < d.confidence)
  | [], bc => by simp [bestDetAux]
  | d :: rest, bc => by
      rw [bestDetAux]
      by_cases hc : 1 / 2 < d.confidence ∧ bc < d.confidence
      · rw [if_pos hc]
        constructor
        · intro h
          exact absurd h (bestDetAux_some_ne_none rest d.confidence d)
        · intro h
          exact absurd hc (h d (by simp))
      · rw [if_neg hc]
        rw [bestDetAux_none_iff rest bc]
        constructor
        · intro h e he
          rcases List.mem_cons.mp he with rfl | he'
          · exact hc
          · exact h e he'
        · intro h e he
          exact h e (List.mem_cons_of_mem _ he)

/-- `best_detection` returns `none` exactly when no detection clears the
`0.5` confidence threshold (line 448). -/
theorem best_detection_none_iff (dets : List Detection) :
    best_detection dets = none ↔ ∀ d ∈ dets, d.confidence ≤ 1 / 2 := by
  rw [best_detection, bestDetAux_none_iff]
  constructor
  · intro h d hd
    by_contra hc
    push_neg at hc
    exact h d hd ⟨hc, by linarith⟩
  · intro h d hd hcontra
    exact absurd hcontra.1 (not_lt.mpr (h d hd))

theorem bestDetAux_some_charac :
    ∀ (l : List Detection) (bc : ℚ) (best : Option Detection) (d : Detection),
      bestDetAux l bc best = some d →
      (best = some d ∧ ∀ e ∈ l, 1 / 2 < e.confidence → e.confidence ≤ bc) ∨
      (∃ pre post, l = pre ++ d :: post ∧ 1 / 2 < d.confidence ∧
        bc < d.confidence ∧
        (∀ e ∈ pre, 1 / 2 < e.confidence → e.confidence < d.confidence) ∧
        (∀ e ∈ post, 1 / 2 < e.confidence → e.confidence ≤ d.confidence))
  | [], bc, best, d, h => by
      left
      exact ⟨h, by simp⟩
  | e :: rest, bc, best, d, h => by
      rw [bestDetAux] at h
      by_cases hc : 1 / 2 < e.confidence ∧ bc < e.confidence
      · rw [if_pos hc] at h
        rcases bestDetAux_some_charac rest e.confidence (some e) d h with
          ⟨heq, hall⟩ | ⟨pre, post, hsplit, hd1, hd2, hpre, hpost⟩
        · cases heq
          right
          refine ⟨[], rest, by simp, hc.1, hc.2, by simp, ?_⟩
          intro x hx h1
          exact hall x hx h1
        · right
          refine ⟨e :: pre, post, by rw [hsplit, List.cons_append], hd1,
            lt_trans hc.2 hd2, ?_, hpost⟩
          intro x hx h1
          rcases List.mem_cons.mp hx with rfl | hx'
          · exact hd2
          · exact hpre x hx' h1
      · rw [if_neg hc] at h
        rcases bestDetAux_some_charac rest bc best d h with
          ⟨heq, hall⟩ | ⟨pre, post, hsplit, hd1, hd2, hpre, hpost⟩
        · left
          refine ⟨heq, ?_⟩
          intro x hx h1
          rcases List.mem_cons.mp hx with rfl | hx'
          · by_contra hgt
            push_neg at hgt
            exact hc ⟨h1, hgt⟩
          · exact hall x hx' h1
        · right
          refine ⟨e :: pre, post, by rw [hsplit, List.cons_append], hd1, hd2,
            ?_, hpost⟩
          intro x hx h1
          rcases List.mem_cons.mp hx with rfl | hx'
          · have hle : x.confidence ≤ bc := by
              by_contra hgt
              push_neg at hgt
              exact hc ⟨h1, hgt⟩
            exact lt_of_le_of_lt hle hd2
          · exact hpre x hx' h1

/-- `best_detection` keeps the first-encountered detection of strictly
highest confidence among those above the `0.5` threshold: earlier
qualifying detections have strictly smaller confidence, later ones at most
equal. -/
theorem best_detection_some_charac (dets : List Detection) (d : Detection)
    (h : best_detection dets = some d) :
    ∃ pre post, dets = pre ++ d :: post ∧ 1 / 2 < d.confidence ∧
      (∀ e ∈ pre, 1 / 2 < e.confidence → e.confidence < d.confidence) ∧
      (∀ e ∈ post, 1 / 2 < e.confidence → e.confidence ≤ d.confidence) := by
  rcases bestDetAux_some_charac dets 0 none d h with ⟨heq, _⟩ |
    ⟨pre, post, h1, h2, _, h4, h5⟩
  · cases heq
  · exact ⟨pre, post, h1, h2, h4, h5⟩

/-! ### Concrete data used by the registry-build witnesses -/

/-- A concrete stand-in for the external embedding model. -/
def cexEmbed : ImageData → CropRect → List ℚ := fun _ _ => [0]

/-- A detection whose box lies entirely right of the image: confidence 0.9
(above threshold) but normalized x-coordinates 1.2 and 1.5, so the clipped
crop `x1 = 120, x2 = min 100 150 = 100` is empty. -/
def cexDet : Detection :=
  { confidence := 9 / 10, bx1 := 6 / 5, by1 := 1 / 5, bx2 := 3 / 2, by2 := 3 / 5 }

def cexImg : ImageData := { w := 100, h := 100, dets := [cexDet] }

def cexEntry : DatasetEntry :=
  { name := "P", isDir := true, files := [{ filename := "a.jpg", image := some cexImg }] }

/-- A detection producing a valid non-empty crop. -/
def goodDet : Detection :=
  { confidence := 9 / 10, bx1 := 1 / 10, by1 := 1 / 10, bx2 := 1 / 2, by2 := 1 / 2 }

def goodImg : ImageData := { w := 100, h := 100, dets := [goodDet] }

def goodFile : ImageFile := { filename := "a.jpg", image := some goodImg }

def goodEntry : DatasetEntry := { name := "P", isDir := true, files := [goodFile] }

/-- A detection whose box bottom sits above the frame in normalized
coordinates: the clipped stop index `y2 = min 100 (truncQ (-1/10 * 100)) =
-10` stays negative, so the numpy slice `image[0:-10, 10:50]` *wraps* to
rows 0..89 — a non-empty crop the code embeds and appends. -/
def wrapDet : Detection :=
  { confidence := 9 / 10, bx1 := 1 / 10, by1 := -1 / 2, bx2 := 1 / 2,
    by2 := -1 / 10 }

def wrapImg : ImageData := { w := 100, h := 100, dets := [wrapDet] }

def wrapFile : ImageFile := { filename := "b.jpg", image := some wrapImg }

theorem cexImg_best : best_detection cexImg.dets = some cexDet := by
  norm_num [best_detection, bestDetAux, cexImg, cexDet]

theorem cexImg_crop_empty : ¬cropNonempty cexImg (cropRect cexImg cexDet) := by
  norm_num [cropNonempty, sliceIdx, cropRect, truncQ, cexImg, cexDet]

theorem cex_imageEntries :
    imageEntries cexEmbed "P" { filename := "a.jpg", image := some cexImg } = [] := by
  have hext : fileExtOk "a.jpg" = true := by decide
  simp [imageEntries, hext, cexImg_best, cexImg_crop_empty]

theorem goodImg_best : best_detection goodImg.dets = some goodDet := by
  norm_num [best_detection, bestDetAux, goodImg, goodDet]

theorem goodImg_crop : cropNonempty goodImg (cropRect goodImg goodDet) := by
  norm_num [cropNonempty, sliceIdx, cropRect, truncQ, goodImg, goodDet]

theorem wrapImg_best : best_detection wrapImg.dets = some wrapDet := by
  norm_num [best_detection, bestDetAux, wrapImg, wrapDet]

/-- The wrapped slice `image[0:-10, 10:50]` is non-empty: the negative stop
index counts from the end of the axis. -/
theorem wrapImg_crop : cropNonempty wrapImg (cropRect wrapImg wrapDet) := by
  have h10 : ⌈(-10 : ℚ)⌉ = (-10 : ℤ) := by
    rw [show ((-10 : ℚ)) = ((-10 : ℤ) : ℚ) by norm_num, Int.ceil_intCast]
  have h50 : ⌈(-50 : ℚ)⌉ = (-50 : ℤ) := by
    rw [show ((-50 : ℚ)) = ((-50 : ℤ) : ℚ) by norm_num, Int.ceil_intCast]
  norm_num [cropNonempty, sliceIdx, cropRect, truncQ, wrapImg, wrapDet, h10, h50]

theorem good_imageEntries :
    imageEntries cexEmbed "P" goodFile = [("P", [0])] := by
  have hext : fileExtOk "a.jpg" = true := by decide
  simp [imageEntries, goodFile, hext, goodImg_best, goodImg_crop, cexEmbed]

/-- **C8, counterexample.** An image with a qualifying detection (confidence
0.9 > 0.5, kept by `best_detection`) for which the build appends *no*
`(label, embedding)` pair: the box's x-range clips to `x1 = 120,
x2 = min 100 150 = 100` — both bounds non-negative, so no Python
negative-index wrap applies, the column slice `[120:100]` is empty and
`face_image.size > 0` fails at line 460.  The registry stays empty,
contradicting the claim that a pair is appended for every kept detection. -/
theorem registry_build_missing_pair_cex :
    best_detection cexImg.dets = some cexDet ∧
    1 / 2 < cexDet.confidence ∧
    load_known_faces cexEmbed (some [cexEntry]) = ([], []) := by
  refine ⟨cexImg_best, by norm_num [cexDet], ?_⟩
  rw [load_known_faces_some]
  simp [registryEntries, dirEntries, cexEntry, cex_imageEntries]

/-- **C8 (amended).** Registry build: (a) a missing dataset root yields the
empty registry, not an error; (b) the build never aborts — it is the
concatenation of independent per-image contributions in traversal order;
(c) each image contributes at most one `(label, embedding)` pair; (d) an
image whose detections all miss the `0.5` confidence threshold contributes
nothing (and `best_detection` returns `none` exactly then); (e) the kept
detection is the one with strictly highest confidence among those above the
threshold, first-encountered winning ties; (f) when the kept detection's
clipped crop is non-empty under Python slice semantics (start indices
clamped to `≥ 0`, stop indices clamped to `≤ w` / `≤ h` with a
still-negative stop counting from the end of the axis), exactly one pair —
the label with the embedding of that crop — is appended. -/
theorem registry_build_spec (embed : ImageData → CropRect → List ℚ) :
    load_known_faces embed none = ([], []) ∧
    (∀ entries, load_known_faces embed (some entries) =
        ((registryEntries embed entries).map Prod.snd,
         (registryEntries embed entries).map Prod.fst)) ∧
    (∀ person file, (imageEntries embed person file).length ≤ 1) ∧
    (∀ person file img, file.image = some img →
        best_detection img.dets = none →
        imageEntries embed person file = []) ∧
    (∀ dets, best_detection dets = none ↔ ∀ d ∈ dets, d.confidence ≤ 1 / 2) ∧
    (∀ dets d, best_detection dets = some d →
        ∃ pre post, dets = pre ++ d :: post ∧ 1 / 2 < d.confidence ∧
          (∀ e ∈ pre, 1 / 2 < e.confidence → e.confidence < d.confidence) ∧
          (∀ e ∈ post, 1 / 2 < e.confidence → e.confidence ≤ d.confidence)) ∧
    (∀ person file img d, file.image = some img →
        fileExtOk file.filename = true → best_detection img.dets = some d →
        cropNonempty img (cropRect img d) →
        imageEntries embed person file =
          [(person, embed img (cropRect img d))]) := by
  refine ⟨rfl, load_known_faces_some embed, ?_, ?_, best_detection_none_iff,
    best_detection_some_charac, ?_⟩
  · intro person file
    rw [imageEntries]
    split
    · split
      · simp
      · split
        · simp
        · split <;> simp
    · simp
  · intro person file img himg hbd
    rw [imageEntries]
    split
    · simp [himg, hbd]
    · rfl
  · intro person file img d himg hext hbd hcrop
    rw [imageEntries, if_pos hext]
    simp only [himg, hbd]
    rw [if_pos hcrop]

/-- Witness for the amended C8 at a concrete input exercising the Python
negative-index wrap: a readable `.jpg` whose kept detection clips to the
slice `image[0:-10, 10:50]` — non-empty because the negative stop index
counts from the end — contributes exactly its one pair. -/
theorem registry_build_spec_witness :
    wrapFile.image = some wrapImg ∧ fileExtOk wrapFile.filename = true ∧
    best_detection wrapImg.dets = some wrapDet ∧
    cropNonempty wrapImg (cropRect wrapImg wrapDet) ∧
    imageEntries cexEmbed "P" wrapFile =
      [("P", cexEmbed wrapImg (cropRect wrapImg wrapDet))] :=
  ⟨rfl, by decide, wrapImg_best, wrapImg_crop,
    (registry_build_spec cexEmbed).2.2.2.2.2.2 "P" wrapFile wrapImg wrapDet
      rfl (by decide) wrapImg_best wrapImg_crop⟩

/-- **C10.** After every registry build the encoding list and the name list
have equal length, and for every query against a non-empty registry the
first-minimum index over the distance array is a valid index into the name
list. -/
theorem registry_parallel_lengths (embed : ImageData → CropRect → List ℚ)
    (dataset : Option (List DatasetEntry)) :
    (load_known_faces embed dataset).1.length =
      (load_known_faces embed dataset).2.length ∧
    ∀ q, (load_known_faces embed dataset).1 ≠ [] →
      argminIdx (distances (load_known_faces embed dataset).1 q) <
        (load_known_faces embed dataset).2.length := by
  have hlen : (load_known_faces embed dataset).1.length =
      (load_known_faces embed dataset).2.length := by
    cases dataset with
    | none => rfl
    | some entries =>
        rw [load_known_faces_some]
        simp
  refine ⟨hlen, ?_⟩
  intro q hne
  have hdne : distances (load_known_faces embed dataset).1 q ≠ [] := by
    intro h
    apply hne
    have := distances_length (load_known_faces embed dataset).1 q
    rw [h] at this
    exact List.length_eq_zero.mp this.symm
  have h1 := argminIdx_lt_length (distances (load_known_faces embed dataset).1 q) hdne
  rw [distances_length] at h1
  omega

/-- Witness for C10: a one-image dataset builds a non-empty registry whose
minimizing index is a valid name index. -/
theorem registry_parallel_lengths_witness :
    (load_known_faces cexEmbed (some [goodEntry])).1 ≠ [] ∧
    argminIdx (distances (load_known_faces cexEmbed (some [goodEntry])).1 [0]) <
      (load_known_faces cexEmbed (some [goodEntry])).2.length :=
  ⟨by
    rw [load_known_faces_some]
    simp [registryEntries, dirEntries, goodEntry, good_imageEntries],
    (registry_parallel_lengths cexEmbed (some [goodEntry])).2 [0]
      (by
        rw [load_known_faces_some]
        simp [registryEntries, dirEntries, goodEntry, good_imageEntries])⟩

/-! ## Live matching loop: `ModernMainWindow.update_frame` (lines 801-986) -/

/-- A detection on a processed live frame, plus the outcome of its crop and
embedding (lines 845-854): `some e` when the crop was non-empty and the
embedding model returned `e`; `none` when the crop was empty (line 878) or
an exception was raised during embedding (line 876) — both degrade the
detection's name to `"Unknown"`. -/
structure LiveDet where
  confidence : ℚ
  emb : Option (List ℚ)
deriving Repr, DecidableEq

/-- The detections kept on a processed frame: confidence strictly above the
hardcoded `0.5` of line 829 (every one of them, unlike the enrollment
build which keeps only the best). -/
def keptDets : List LiveDet → List LiveDet
  | [] => []
  | d :: rest =>
      if (1 : ℚ) / 2 < d.confidence then d :: keptDets rest else keptDets rest

/-- The name resolved for one kept detection (lines 845-879): `"Unknown"`
when the crop/embedding failed, else the registry query result. -/
def detName (enc : List (List ℚ)) (names : List String) (d : LiveDet) :
    String :=
  match d.emb with
  | none => "Unknown"
  | some e => queryMatch enc names e

/-- The `face_names` list built on a processed frame (lines 821-879): one
resolved name per kept detection, in model output order. -/
def faceNames (enc : List (List ℚ)) (names : List String)
    (dets : List LiveDet) : List String :=
  (keptDets dets).map (detName enc names)

/-- What the processed-frame branch at lines 881-918 does to the profile
card. -/
inductive ProfileEvent where
  | lookup (label : String)
  | unknownProfile
  | scanningPlaceholder
  | noUpdate
deriving Repr, DecidableEq

/-- Lines 881-918: when at least one face was processed, the *first* name
drives the profile card (`get_profile(face_names[0])` for a known name,
the "Unknown Person" placeholder otherwise); with no face, the "Scanning"
placeholder is emitted only when `frame_count % 100 == 0` (line 906). -/
def profileEvent (enc : List (List ℚ)) (names : List String)
    (dets : List LiveDet) (frameCount : Nat) : ProfileEvent :=
  match faceNames enc names dets with
  | n :: _ => if n ≠ "Unknown" then .lookup n else .unknownProfile
  | [] =>
      if frameCount % 100 = 0 then .scanningPlaceholder else .noUpdate

/-- The live loop's per-poll mutable state: `frame_count` and
`process_this_frame` (lines 369-370, 807, 974). -/
structure LiveState where
  frameCount : Nat
  processThisFrame : Bool
deriving Repr, DecidableEq

/-- Initial state: `self.frame_count = 0`, `self.process_this_frame = True`
(lines 369-370). -/
def liveInit : LiveState := { frameCount := 0, processThisFrame := true }

/-- One successful poll of `update_frame`: the counter is incremented first
(line 807); when `process_this_frame` is set the detect/embed/match
pipeline runs and produces a profile event (lines 813-918), else the frame
is only re-rendered; the flag flips unconditionally at line 974. -/
def pollStep (enc : List (List ℚ)) (names : List String) (s : LiveState)
    (dets : List LiveDet) : LiveState × Option ProfileEvent :=
  if s.processThisFrame then
    (⟨s.frameCount + 1, false⟩,
      some (profileEvent enc names dets (s.frameCount + 1)))
  else
    (⟨s.frameCount + 1, true⟩, none)

/-- Iterated polling: one `pollStep` per timer event, collecting the
profile events of the processed frames. -/
def runPolls (enc : List (List ℚ)) (names : List String) :
    LiveState → List (List LiveDet) → LiveState × List ProfileEvent
  | s, [] => (s, [])
  | s, dets :: rest =>
      let step := pollStep enc names s dets
      let next := runPolls enc names step.1 rest
      (next.1,
        match step.2 with
        | some e => e :: next.2
        | none => next.2)

/-- A processed frame with an off-cycle counter (`frame_count % 100 ≠ 0`)
never yields the "Scanning" placeholder. -/
theorem profileEvent_ne_scanning (enc : List (List ℚ)) (names : List String)
    (dets : List LiveDet) (fc : Nat) (h : fc % 100 ≠ 0) :
    profileEvent enc names dets fc ≠ ProfileEvent.scanningPlaceholder := by
  rw [profileEvent]
  split
  · split <;> simp
  · rw [if_neg h]
    simp

/-- Parity invariant behind C5: from any state whose flag agrees with the
parity of its counter (processing on even counts), no poll sequence ever
emits the "Scanning" placeholder — processed frames always carry an odd
(incremented) counter, and `frame_count % 100 == 0` needs an even one. -/
theorem scanning_never_aux (enc : List (List ℚ)) (names : List String) :
    ∀ (polls : List (List LiveDet)) (s : LiveState),
      (s.processThisFrame = true ↔ s.frameCount % 2 = 0) →
      ProfileEvent.scanningPlaceholder ∉ (runPolls enc names s polls).2
  | [], s, _ => by simp [runPolls]
  | dets :: rest, s, hinv => by
      by_cases hp : s.processThisFrame = true
      · have hodd : (s.frameCount + 1) % 2 = 1 := by
          have := hinv.mp hp
          omega
        have hps : pollStep enc names s dets =
            (⟨s.frameCount + 1, false⟩,
              some (profileEvent enc names dets (s.frameCount + 1))) := by
          rw [pollStep, if_pos hp]
        have hrest := scanning_never_aux enc names rest
          ⟨s.frameCount + 1, false⟩ (by simp [hodd])
        have hev := profileEvent_ne_scanning enc names dets (s.frameCount + 1)
          (by omega)
        simp only [runPolls, hps]
        intro hmem
        rcases List.mem_cons.mp hmem with h | h
        · exact hev h.symm
        · exact hrest h
      · have heven : (s.frameCount + 1) % 2 = 0 := by
          have h2 : ¬s.frameCount % 2 = 0 := fun hc => hp (hinv.mpr hc)
          omega
        have hps : pollStep enc names s dets =
            (⟨s.frameCount + 1, true⟩, none) := by
          rw [pollStep, if_neg hp]
        have hrest := scanning_never_aux enc names rest
          ⟨s.frameCount + 1, true⟩ (by simp [heven])
        simp only [runPolls, hps]
        exact hrest

/-- **C5.** From the live window's start-up state, the "Scanning" profile
placeholder is *never* emitted, whatever the poll sequence (in particular
over any window of 100 processed frames with no detection): processing
happens only on polls with an odd incremented `frame_count` (the counter
increments before the parity flag flips), while the emission guard
`frame_count % 100 == 0` requires an even one.  This contradicts the
claim (and the code's own "Update every ~3 seconds" comment at line 906)
that the placeholder is re-emitted every 100 processed frames. -/
theorem scanning_placeholder_never_emitted (enc : List (List ℚ))
    (names : List String) (polls : List (List LiveDet)) :
    ProfileEvent.scanningPlaceholder ∉ (runPolls enc names liveInit polls).2 :=
  scanning_never_aux enc names polls liveInit (by simp [liveInit])

/-! ### Concrete data for the multi-detection claims -/

def c4enc : List (List ℚ) := [[0], [10]]

def c4names : List String := ["Alice", "Bob"]

/-- Two kept detections: the first embeds to the first stored vector, the
second to the second. -/
def c4dets : List LiveDet :=
  [{ confidence := 9 / 10, emb := some [0] },
   { confidence := 8 / 10, emb := some [10] }]

/-- A frame with only the first of the two detections. -/
def c4dets2 : List LiveDet := [{ confidence := 9 / 10, emb := some [0] }]

theorem c4_faceNames_eval : faceNames c4enc c4names c4dets = ["Alice", "Bob"] := by
  norm_num [faceNames, keptDets, detName, c4enc, c4names, c4dets, queryMatch,
    queryMatchT, distances, dist2, argminIdx]

theorem c4_faceNames2_eval : faceNames c4enc c4names c4dets2 = ["Alice"] := by
  norm_num [faceNames, keptDets, detName, c4enc, c4names, c4dets2, queryMatch,
    queryMatchT, distances, dist2, argminIdx]

/-- **C4, counterexample.** On a processed frame with two detections above
the confidence threshold, the *second* detection is also embedded and
matched against the registry: its resolved name is the registry label
`"Bob"` (drawn in its overlay at line 953), not `"Unknown"` — so the
remaining detections are *not* left unresolved; only the profile lookup is
restricted to the first name (line 884). -/
theorem second_detection_resolved_cex :
    faceNames c4enc c4names c4dets = ["Alice", "Bob"] ∧
    detName c4enc c4names { confidence := 8 / 10, emb := some [10] } = "Bob" ∧
    "Bob" ∈ c4names ∧ "Bob" ≠ "Unknown" := by
  refine ⟨c4_faceNames_eval, ?_, by decide, by decide⟩
  norm_num [detName, c4enc, c4names, queryMatch, queryMatchT, distances,
    dist2, argminIdx]

/-- **C4 (amended).** On a processed frame, *every* detection above the
detection-confidence threshold is embedded and matched against the
registry, each position of `face_names` holding its own resolution result;
but only the first detection's result is forwarded to the profile card:
the profile event is a function of the head of `face_names` alone, so the
remaining detections' results never affect the displayed profile. -/
theorem first_detection_drives_profile (enc : List (List ℚ))
    (names : List String) (dets : List LiveDet) (fc : Nat) :
    (faceNames enc names dets).length = (keptDets dets).length ∧
    (∀ i, i < (keptDets dets).length →
        (faceNames enc names dets).getD i "" =
          detName enc names ((keptDets dets).getD i ⟨0, none⟩)) ∧
    (∀ dets2, (faceNames enc names dets).head? =
        (faceNames enc names dets2).head? →
      profileEvent enc names dets fc = profileEvent enc names dets2 fc) := by
  refine ⟨List.length_map _ _, ?_, ?_⟩
  · intro i hi
    exact getD_map _ _ i hi ⟨0, none⟩ ""
  · intro dets2 hhead
    rw [profileEvent, profileEvent]
    cases h1 : faceNames enc names dets with
    | nil =>
        cases h2 : faceNames enc names dets2 with
        | nil => rfl
        | cons b l2 =>
            rw [h1, h2] at hhead
            simp at hhead
    | cons a l1 =>
        cases h2 : faceNames enc names dets2 with
        | nil =>
            rw [h1, h2] at hhead
            simp at hhead
        | cons b l2 =>
            rw [h1, h2] at hhead
            simp only [List.head?_cons, Option.some_inj] at hhead
            rw [hhead]

/-- Witness for the amended C4: two distinct frames whose first kept
detections resolve to the same name produce the same profile event. -/
theorem first_detection_drives_profile_witness :
    (faceNames c4enc c4names c4dets).head? =
      (faceNames c4enc c4names c4dets2).head? ∧
    profileEvent c4enc c4names c4dets 1 = profileEvent c4enc c4names c4dets2 1 :=
  ⟨by rw [c4_faceNames_eval, c4_faceNames2_eval]; rfl,
    (first_detection_drives_profile c4enc c4names c4dets 1).2.2 c4dets2
      (by rw [c4_faceNames_eval, c4_faceNames2_eval]; rfl)⟩

/-! ## Settings: `settings_manager.py`

The matcher and the builder are modelled as functions of the ambient
settings store (the global `settings` object both windows import), which
makes "reads nothing from it" a provable statement: the result is invariant
in the store argument. -/

/-- The numeric recognition settings of `DEFAULT_SETTINGS`
(`settings_manager.py` lines 21-24). -/
structure RecognitionSettings where
  recognition_threshold : ℚ
  confidence_threshold : ℚ
  process_every_n_frames : Nat
deriving Repr, DecidableEq

/-- `DEFAULT_SETTINGS`: `recognition_threshold` 0.8,
`confidence_threshold` 0.5, `process_every_n_frames` 2. -/
def defaultSettings : RecognitionSettings :=
  { recognition_threshold := 4 / 5
    confidence_threshold := 1 / 2
    process_every_n_frames := 2 }

/-- The recognition threshold `update_frame` actually compares against:
the literal `0.8` at `main_modern.py` line 869. -/
def liveRecognitionThreshold : ℚ := 4 / 5

/-- The detection-confidence threshold actually used at lines 829 (live
loop) and 448 (registry build): the literal `0.5`. -/
def liveConfidenceThreshold : ℚ := 1 / 2

/-- The live match decision as a function of the ambient settings store:
`update_frame` reads none of the three recognition keys — the decision uses
the hardcoded `0.8`, whatever the store holds. -/
def liveMatchDecision (st : RecognitionSettings) (enc : List (List ℚ))
    (names : List String) (q : List ℚ) : String :=
  queryMatchT enc names q liveRecognitionThreshold

/-- The registry build as a function of the ambient settings store: it
reads none of the keys either (hardcoded `0.5` at line 448). -/
def load_known_faces_settings (st : RecognitionSettings)
    (embed : ImageData → CropRect → List ℚ)
    (dataset : Option (List DatasetEntry)) : List (List ℚ) × List String :=
  load_known_faces embed dataset

/-- The settings store claimed to raise the recognition threshold to 2. -/
def bigSettings : RecognitionSettings :=
  { recognition_threshold := 2
    confidence_threshold := 1 / 2
    process_every_n_frames := 2 }

/-- **C3, counterexample.** With the store's `recognition_threshold` set to
2, a query at (squared) distance 1 from the only stored vector — strictly
below the stored threshold (squared) — is still rejected as `"Unknown"`,
and the decision is identical to the one under the default store: the live
matcher does not use the value read from the settings store, so changing
the setting does not change the decision. -/
theorem settings_ignored_cex :
    liveMatchDecision bigSettings [[(0 : ℚ)]] ["Alice"] [1] = "Unknown" ∧
    dist2 [(0 : ℚ)] [1] < bigSettings.recognition_threshold ^ 2 ∧
    liveMatchDecision bigSettings [[(0 : ℚ)]] ["Alice"] [1] =
      liveMatchDecision defaultSettings [[(0 : ℚ)]] ["Alice"] [1] := by
  refine ⟨?_, ?_, rfl⟩
  · norm_num [liveMatchDecision, queryMatchT, liveRecognitionThreshold,
      distances, dist2, argminIdx]
  · norm_num [dist2, bigSettings]

/-- **C3 (amended).** The settings store defines `recognition_threshold`,
`confidence_threshold` and `process_every_n_frames` with defaults 0.8, 0.5
and 2, and the constants the matcher and builder actually hardcode coincide
with those defaults — but neither the live match decision nor the registry
build reads the store (both are invariant under any change of the store's
values), and frame processing alternates by a toggle flag (every 2nd poll)
rather than by the `process_every_n_frames` value. -/
theorem settings_contract_not_wired :
    defaultSettings.recognition_threshold = 4 / 5 ∧
    defaultSettings.confidence_threshold = 1 / 2 ∧
    defaultSettings.process_every_n_frames = 2 ∧
    liveRecognitionThreshold = defaultSettings.recognition_threshold ∧
    liveConfidenceThreshold = defaultSettings.confidence_threshold ∧
    (∀ (st st' : RecognitionSettings) (enc : List (List ℚ))
        (names : List String) (q : List ℚ),
      liveMatchDecision st enc names q = liveMatchDecision st' enc names q) ∧
    (∀ (st st' : RecognitionSettings) (embed : ImageData → CropRect → List ℚ)
        (ds : Option (List DatasetEntry)),
      load_known_faces_settings st embed ds =
        load_known_faces_settings st' embed ds) ∧
    (∀ (enc : List (List ℚ)) (names : List String) (s : LiveState)
        (dets : List LiveDet),
      (pollStep enc names s dets).1.processThisFrame = !s.processThisFrame ∧
        ((pollStep enc names s dets).2.isSome ↔ s.processThisFrame = true)) := by
  refine ⟨rfl, rfl, rfl, rfl, rfl, fun _ _ _ _ _ => rfl, fun _ _ _ _ => rfl, ?_⟩
  intro enc names s dets
  rw [pollStep]
  by_cases hp : s.processThisFrame = true
  · rw [if_pos hp, hp]
    simp
  · rw [if_neg hp]
    simp only [Bool.not_eq_true] at hp
    rw [hp]
    simp
